import Mathlib

/-!
Verification of the `crudapp` Solana Anchor program
(`src/anchor/programs/crudapp/src/lib.rs`) as a content-keyed
fixed-capacity record store.

The program's state lives in accounts addressed by program-derived
addresses (PDAs).  We embed it as a partial map from derived keys to
slots.  The account constraints declared with `#[derive(Accounts)]`
(`init`, `mut` + `seeds`/`bump`, `realloc`, `close`) are generated checks
that run before each instruction handler; the embedding performs them
explicitly, in the order the framework does:

* `init` (struct `CreatelEntry`) fails when an account already exists at
  the derived address, then allocates `8 + JournalEntryState::INIT_SPACE`
  bytes paid by `owner`;
* `mut` + `seeds` (struct `UpdatelEntry`) first requires an existing,
  program-owned account at the passed address (otherwise the account
  fails to deserialize), then checks that the passed address equals the
  PDA derived from `[title.as_bytes(), owner.key().as_ref()]` for the
  signing caller (otherwise a seeds-constraint violation), then reallocs
  the slot to `8 + JournalEntryState::INIT_SPACE`;
* after the handler runs, the account state is serialized (borsh) back
  into the slot; when the serialized bytes exceed the slot's data
  capacity the instruction fails and the transaction rolls back.

Note that `delete_journal_entry` takes `Context<UpdatelEntry>` — the
realloc context — not `Context<DeletelEntry>`; the `DeletelEntry` struct
with `close = owner` is declared in the source but never used by any
handler, so the delete instruction never closes the account.
-/

namespace Crudapp

/-- Raw byte strings.  The program's `String` fields and `Pubkey`s enter
the store logic only through their encoded bytes (`as_bytes`,
`key().as_ref()`), so both are embedded as lists of bytes. -/
abbrev Bytes := List Nat

/-- A public key (owner identity), as its raw bytes. -/
abbrev Pubkey := Bytes

/-- The account data type `JournalEntryState` from the source:
`owner: Pubkey`, `title: String` (`#[max_len(50)]`),
`message: String` (`#[max_len(1000)]`). -/
structure JournalEntryState where
  owner : Pubkey
  title : Bytes
  message : Bytes
deriving DecidableEq, Repr

/-- `JournalEntryState::INIT_SPACE` as computed by `#[derive(InitSpace)]`:
32 bytes for the `Pubkey`, and for each `#[max_len(n)]` string a 4-byte
borsh length prefix plus `n` bytes. -/
def initSpace : Nat := 32 + (4 + 50) + (4 + 1000)

/-- Total account size used by both `init` (`space = 8 +
JournalEntryState::INIT_SPACE`) and `realloc` (`realloc = 8 +
JournalEntryState::INIT_SPACE`): an 8-byte discriminator followed by
`INIT_SPACE` bytes of data capacity. -/
def accountSpace : Nat := 8 + initSpace

/-- Number of bytes borsh serialization writes for a record: 32 for the
owner key, and a 4-byte length prefix plus the actual bytes for each
string.  The instruction succeeds only when this fits in the data
capacity `initSpace` that follows the discriminator. -/
def serializedSize (r : JournalEntryState) : Nat :=
  32 + (4 + r.title.length) + (4 + r.message.length)

/-- Modelled from the spec: the program-derived address.  The derivation
primitive (`find_program_address` over the seed tuple
`[title.as_bytes(), owner.key().as_ref()]` declared in the accounts
structs, plus a bump) is host-runtime code, not part of this repository.
Per spec §3 the same seed pair always maps to the same key and distinct
seed pairs map to distinct keys, so the key is embedded as the seed pair
itself — the canonical injective, deterministic model. -/
structure Key where
  titleSeed : Bytes
  ownerSeed : Bytes
deriving DecidableEq, Repr

/-- Key derivation from the seeds `[title.as_bytes(), owner.key().as_ref()]`. -/
def derive_key (title : Bytes) (owner : Pubkey) : Key := ⟨title, owner⟩

/-- An allocated account slot: its deserialized record state and its
allocated size in bytes. -/
structure Slot where
  state : JournalEntryState
  size : Nat
deriving DecidableEq, Repr

/-- The account namespace restricted to this program: a partial map from
derived keys to allocated slots. -/
abbrev Store := Key → Option Slot

/-- The store with no journal-entry account allocated. -/
def emptyStore : Store := fun _ => none

/-- Point update of the store. -/
def storeSet (s : Store) (k : Key) (v : Option Slot) : Store :=
  fun k' => if k' = k then v else s k'

/-- Errors an instruction can fail with.  Each constructor names the
spec-level error it abstracts; the comment names the concrete
framework/runtime error the program actually surfaces.  Note the source
declares no error enum of its own — in particular there is no
`FieldTooLong` error anywhere in the program. -/
inductive Err where
  /-- Spec `SlotAlreadyExists`: `init` on an address where an account
  already exists (runtime "account already in use"). -/
  | SlotAlreadyExists
  /-- Spec `RecordNotFound`: the passed account does not hold a record
  (framework `AccountNotInitialized`). -/
  | RecordNotFound
  /-- Spec `NotOwner`: the passed account is not the PDA derived from the
  caller's key and the given title (framework `ConstraintSeeds`). -/
  | NotOwner
  /-- Serialized record too large for the fixed slot capacity (framework
  `AccountDidNotSerialize`); the transaction rolls back. -/
  | CapacityExceeded
deriving DecidableEq, Repr

/-- Result of one instruction: the instruction outcome and the store
after the enclosing transaction commits or rolls back. -/
structure OpResult where
  res : Except Err Unit
  store : Store

/-- The `create_journal_entry` instruction with its `CreatelEntry`
accounts context: `init` an account at `derive_key title owner` with
`space = 8 + INIT_SPACE` (fails if one exists), run the handler (which
writes `owner`, `title`, `message`), then serialize the record back into
the slot (fails, rolling back, if it exceeds the data capacity). -/
def create_journal_entry (s : Store) (owner : Pubkey) (title message : Bytes) :
    OpResult :=
  match s (derive_key title owner) with
  | some _ => ⟨.error .SlotAlreadyExists, s⟩
  | none =>
    if serializedSize ⟨owner, title, message⟩ ≤ initSpace then
      ⟨.ok (), storeSet s (derive_key title owner)
        (some ⟨⟨owner, title, message⟩, accountSpace⟩)⟩
    else
      ⟨.error .CapacityExceeded, s⟩

/-- The `update_journal_entry` instruction with its `UpdatelEntry`
accounts context: the caller signs as `caller` and passes an account
address `acct`; the account must exist (else `RecordNotFound`), `acct`
must equal the PDA derived from the passed title and the caller's key
(else `NotOwner`), the slot is realloc'd to `8 + INIT_SPACE`, the handler
replaces `message`, and the record is serialized back (capacity check). -/
def update_journal_entry (s : Store) (caller : Pubkey) (acct : Key)
    (title message : Bytes) : OpResult :=
  match s acct with
  | none => ⟨.error .RecordNotFound, s⟩
  | some slot =>
    if acct = derive_key title caller then
      if serializedSize ⟨slot.state.owner, slot.state.title, message⟩ ≤ initSpace then
        ⟨.ok (), storeSet s acct
          (some ⟨⟨slot.state.owner, slot.state.title, message⟩, accountSpace⟩)⟩
      else
        ⟨.error .CapacityExceeded, s⟩
    else
      ⟨.error .NotOwner, s⟩

/-- The `delete_journal_entry` instruction.  Its context is
`Context<UpdatelEntry>` — the same realloc context as update, not the
`DeletelEntry` close context — and its handler body is just `Ok(())`.
So: the account must exist, the seeds must match the caller, the slot is
realloc'd to `8 + INIT_SPACE`, and the unchanged record is serialized
back.  No account is closed and no storage is refunded. -/
def delete_journal_entry (s : Store) (caller : Pubkey) (acct : Key)
    (title : Bytes) : OpResult :=
  match s acct with
  | none => ⟨.error .RecordNotFound, s⟩
  | some slot =>
    if acct = derive_key title caller then
      if serializedSize slot.state ≤ initSpace then
        ⟨.ok (), storeSet s acct (some ⟨slot.state, accountSpace⟩)⟩
      else
        ⟨.error .CapacityExceeded, s⟩
    else
      ⟨.error .NotOwner, s⟩

/-- Owner-consistency invariant: every live record's stored `owner`
field equals the owner seed of the key it is stored at. -/
def ownerInv (s : Store) : Prop :=
  ∀ k slot, s k = some slot → k.ownerSeed = slot.state.owner

/-- Sample owner key A (32 bytes, mirroring a `Pubkey`). -/
def ownerA : Pubkey := List.replicate 32 1

/-- Sample owner key B, distinct from `ownerA`. -/
def ownerB : Pubkey := List.replicate 32 2

/-- Sample title `"Day1"` as UTF-8 bytes. -/
def titleDay1 : Bytes := [68, 97, 121, 49]

/-- Sample message `"hello"` as UTF-8 bytes. -/
def msgHello : Bytes := [104, 101, 108, 108, 111]

/-- Sample message `"hello world"` as UTF-8 bytes. -/
def msgHelloWorld : Bytes := [104, 101, 108, 108, 111, 32, 119, 111, 114, 108, 100]

/-- A title of exactly 50 bytes. -/
def t50 : Bytes := List.replicate 50 97

/-- A title of exactly 51 bytes (one over the `#[max_len(50)]` bound). -/
def t51 : Bytes := List.replicate 51 97

/-- A message of exactly 1000 bytes. -/
def m1000 : Bytes := List.replicate 1000 98

/-- A message of exactly 1001 bytes (one over the `#[max_len(1000)]` bound). -/
def m1001 : Bytes := List.replicate 1001 98

/-- The derived key of the sample record. -/
def keyDay1 : Key := derive_key titleDay1 ownerA

/-- A store holding one live record: (ownerA, "Day1", "hello"). -/
def liveStore : Store :=
  (create_journal_entry emptyStore ownerA titleDay1 msgHello).store

theorem storeSet_self (s : Store) (k : Key) (v : Option Slot) :
    storeSet s k v k = v := by
  simp [storeSet]

theorem storeSet_ne (s : Store) (k k' : Key) (v : Option Slot) (h : k' ≠ k) :
    storeSet s k v k' = s k' := by
  simp [storeSet, h]

theorem create_of_occupied {s : Store} {o : Pubkey} {t m : Bytes} {slot : Slot}
    (h : s (derive_key t o) = some slot) :
    create_journal_entry s o t m = ⟨.error .SlotAlreadyExists, s⟩ := by
  unfold create_journal_entry
  rw [h]

theorem create_of_free {s : Store} {o : Pubkey} {t m : Bytes}
    (h : s (derive_key t o) = none) :
    create_journal_entry s o t m =
      if serializedSize ⟨o, t, m⟩ ≤ initSpace then
        ⟨.ok (), storeSet s (derive_key t o) (some ⟨⟨o, t, m⟩, accountSpace⟩)⟩
      else ⟨.error .CapacityExceeded, s⟩ := by
  unfold create_journal_entry
  rw [h]

theorem update_of_absent {s : Store} {caller : Pubkey} {acct : Key} {t m : Bytes}
    (h : s acct = none) :
    update_journal_entry s caller acct t m = ⟨.error .RecordNotFound, s⟩ := by
  unfold update_journal_entry
  rw [h]

theorem update_of_found {s : Store} {caller : Pubkey} {acct : Key} {t m : Bytes}
    {slot : Slot} (h : s acct = some slot) :
    update_journal_entry s caller acct t m =
      if acct = derive_key t caller then
        if serializedSize ⟨slot.state.owner, slot.state.title, m⟩ ≤ initSpace then
          ⟨.ok (), storeSet s acct
            (some ⟨⟨slot.state.owner, slot.state.title, m⟩, accountSpace⟩)⟩
        else ⟨.error .CapacityExceeded, s⟩
      else ⟨.error .NotOwner, s⟩ := by
  unfold update_journal_entry
  rw [h]

theorem delete_of_absent {s : Store} {caller : Pubkey} {acct : Key} {t : Bytes}
    (h : s acct = none) :
    delete_journal_entry s caller acct t = ⟨.error .RecordNotFound, s⟩ := by
  unfold delete_journal_entry
  rw [h]

theorem delete_of_found {s : Store} {caller : Pubkey} {acct : Key} {t : Bytes}
    {slot : Slot} (h : s acct = some slot) :
    delete_journal_entry s caller acct t =
      if acct = derive_key t caller then
        if serializedSize slot.state ≤ initSpace then
          ⟨.ok (), storeSet s acct (some ⟨slot.state, accountSpace⟩)⟩
        else ⟨.error .CapacityExceeded, s⟩
      else ⟨.error .NotOwner, s⟩ := by
  unfold delete_journal_entry
  rw [h]

theorem ownerInv_storeSet {s : Store} {k0 : Key} {slot0 : Slot}
    (hs : ownerInv s) (h0 : k0.ownerSeed = slot0.state.owner) :
    ownerInv (storeSet s k0 (some slot0)) := by
  intro k slot hk
  unfold storeSet at hk
  by_cases hkk : k = k0
  · subst hkk
    rw [if_pos rfl] at hk
    injection hk with h
    exact h ▸ h0
  · rw [if_neg hkk] at hk
    exact hs k slot hk

/-- C1: refuted by the code as written.  `delete_journal_entry` takes
`Context<UpdatelEntry>` (the realloc context), not `Context<DeletelEntry>`
(whose `close = owner` constraint is declared in the source but never
used by any handler).  On a live record (ownerA, "Day1", "hello"), the
delete instruction succeeds, yet the record still exists at
`derive_key("Day1", ownerA)` with all of its fields, and a subsequent
create with the same (title, owner) fails with `SlotAlreadyExists`
instead of succeeding with a fresh record. -/
theorem delete_leaves_record_live :
    (delete_journal_entry liveStore ownerA keyDay1 titleDay1).res = .ok () ∧
    (delete_journal_entry liveStore ownerA keyDay1 titleDay1).store keyDay1 =
      some ⟨⟨ownerA, titleDay1, msgHello⟩, accountSpace⟩ ∧
    (create_journal_entry
        (delete_journal_entry liveStore ownerA keyDay1 titleDay1).store
        ownerA titleDay1 msgHelloWorld).res = .error .SlotAlreadyExists :=
  ⟨rfl, rfl, rfl⟩

set_option maxRecDepth 40000 in
/-- C2 counterexample: there is no `FieldTooLong` check anywhere in the
program (`#[max_len(n)]` only sizes the allocation); the only rejection
is the total-capacity serialization check.  Hence a 51-byte title is
accepted by create when the message is short, a 1001-byte message is
accepted by create when the title is short, and update accepts a
1001-byte message on a record with a 4-byte title — all contradicting
the claimed per-field 50/1000 boundaries. -/
theorem fieldTooLong_not_enforced :
    (create_journal_entry emptyStore ownerA t51 []).res = .ok () ∧
    (create_journal_entry emptyStore ownerA [] m1001).res = .ok () ∧
    (update_journal_entry liveStore ownerA keyDay1 titleDay1 m1001).res = .ok () :=
  ⟨rfl, rfl, rfl⟩

/-- C2 amended: create on a free key, and update on a live record
addressed through a matching (title, caller) seed pair, succeed exactly
when the borsh-serialized record fits the fixed data capacity, i.e. when
the title's byte length plus the message's byte length is at most 1050
(`INIT_SPACE` minus the pubkey and the two length prefixes); otherwise
they fail with the serialization-capacity error, not a per-field
`FieldTooLong`.  In particular title 50 with message 1000 is exactly at
the boundary and succeeds. -/
theorem create_update_capacity_bound :
    (∀ (s : Store) (owner : Pubkey) (title message : Bytes),
      s (derive_key title owner) = none →
      (((create_journal_entry s owner title message).res = .ok ()) ↔
        title.length + message.length ≤ 1050) ∧
      (((create_journal_entry s owner title message).res =
          .error .CapacityExceeded) ↔
        1050 < title.length + message.length)) ∧
    (∀ (s : Store) (caller : Pubkey) (title message : Bytes) (slot : Slot),
      s (derive_key title caller) = some slot →
      (((update_journal_entry s caller (derive_key title caller) title
          message).res = .ok ()) ↔
        slot.state.title.length + message.length ≤ 1050)) := by
  constructor
  · intro s owner title message hfree
    rw [create_of_free hfree]
    by_cases hsz : serializedSize ⟨owner, title, message⟩ ≤ initSpace
    · have hle : title.length + message.length ≤ 1050 := by
        simp only [serializedSize, initSpace] at hsz
        omega
      rw [if_pos hsz]
      exact ⟨⟨fun _ => hle, fun _ => rfl⟩,
        ⟨fun h => Except.noConfusion h, fun h => absurd hle (by omega)⟩⟩
    · have hgt : 1050 < title.length + message.length := by
        simp only [serializedSize, initSpace] at hsz
        omega
      rw [if_neg hsz]
      exact ⟨⟨fun h => Except.noConfusion h, fun h => absurd hgt (by omega)⟩,
        ⟨fun _ => hgt, fun _ => rfl⟩⟩
  · intro s caller title message slot hsome
    rw [update_of_found hsome, if_pos rfl]
    by_cases hsz :
        serializedSize ⟨slot.state.owner, slot.state.title, message⟩ ≤ initSpace
    · have hle : slot.state.title.length + message.length ≤ 1050 := by
        simp only [serializedSize, initSpace] at hsz
        omega
      rw [if_pos hsz]
      exact ⟨fun _ => hle, fun _ => rfl⟩
    · have hgt : ¬ slot.state.title.length + message.length ≤ 1050 := by
        simp only [serializedSize, initSpace] at hsz
        omega
      rw [if_neg hsz]
      exact ⟨fun h => Except.noConfusion h, fun h => absurd h hgt⟩

/-- Witness for the amended C2 at the exact boundary: title of 50 bytes
with message of 1000 bytes (total 1050) is accepted. -/
theorem create_update_capacity_bound_witness :
    (create_journal_entry emptyStore ownerA t50 m1000).res = .ok () :=
  ((create_update_capacity_bound.1 emptyStore ownerA t50 m1000 rfl).1).mpr
    (by simp only [t50, m1000, List.length_replicate]; omega)

/-- C3: on a free key, create with in-bounds fields (title at most 50
bytes, message at most 1000 bytes) succeeds, and an immediate lookup at
the derived key returns a record whose owner, title and message equal
exactly the arguments of create. -/
theorem create_then_lookup (s : Store) (owner : Pubkey) (title message : Bytes)
    (hfree : s (derive_key title owner) = none)
    (ht : title.length ≤ 50) (hm : message.length ≤ 1000) :
    (create_journal_entry s owner title message).res = .ok () ∧
    (create_journal_entry s owner title message).store (derive_key title owner) =
      some ⟨⟨owner, title, message⟩, accountSpace⟩ := by
  have hsz : serializedSize ⟨owner, title, message⟩ ≤ initSpace := by
    simp only [serializedSize, initSpace]
    omega
  rw [create_of_free hfree, if_pos hsz]
  exact ⟨rfl, storeSet_self s (derive_key title owner) _⟩

/-- Witness for C3 at (ownerA, "Day1", "hello") on the empty store. -/
theorem create_then_lookup_witness :
    (create_journal_entry emptyStore ownerA titleDay1 msgHello).res = .ok () ∧
    (create_journal_entry emptyStore ownerA titleDay1 msgHello).store keyDay1 =
      some ⟨⟨ownerA, titleDay1, msgHello⟩, accountSpace⟩ :=
  create_then_lookup emptyStore ownerA titleDay1 msgHello rfl
    (by decide) (by decide)

/-- C4: when a create at (title, owner) succeeded, a second create with
the same (title, owner) and no intervening delete fails with
`SlotAlreadyExists` (the `init` constraint finds the account in use) and
leaves the whole store — in particular the first record — unchanged. -/
theorem create_twice_fails (s : Store) (owner : Pubkey) (t m1 m2 : Bytes)
    (hok : (create_journal_entry s owner t m1).res = .ok ()) :
    (create_journal_entry (create_journal_entry s owner t m1).store owner t m2).res =
      .error .SlotAlreadyExists ∧
    (create_journal_entry (create_journal_entry s owner t m1).store owner t m2).store =
      (create_journal_entry s owner t m1).store := by
  cases hfree : s (derive_key t owner) with
  | some slot =>
    rw [create_of_occupied hfree] at hok
    exact Except.noConfusion hok
  | none =>
    rw [create_of_free hfree] at hok ⊢
    by_cases hsz : serializedSize ⟨owner, t, m1⟩ ≤ initSpace
    · rw [if_pos hsz]
      have hlook : storeSet s (derive_key t owner)
          (some ⟨⟨owner, t, m1⟩, accountSpace⟩) (derive_key t owner) =
          some ⟨⟨owner, t, m1⟩, accountSpace⟩ :=
        storeSet_self s (derive_key t owner) _
      rw [create_of_occupied hlook]
      exact ⟨rfl, rfl⟩
    · rw [if_neg hsz] at hok
      exact Except.noConfusion hok

/-- Witness for C4: creating (ownerA, "Day1") twice on the empty store. -/
theorem create_twice_fails_witness :
    (create_journal_entry liveStore ownerA titleDay1 msgHelloWorld).res =
      .error .SlotAlreadyExists ∧
    (create_journal_entry liveStore ownerA titleDay1 msgHelloWorld).store =
      liveStore :=
  create_twice_fails emptyStore ownerA titleDay1 msgHello msgHelloWorld rfl

/-- C5: a successful update replaces the stored message with the new
message and leaves the record's owner and title unchanged (the handler
writes only `journal_entry.message`; the title argument is used only to
re-derive the key); every other key of the store is untouched. -/
theorem update_replaces_message_only (s : Store) (caller : Pubkey) (acct : Key)
    (title message : Bytes)
    (hok : (update_journal_entry s caller acct title message).res = .ok ()) :
    ∃ slot : Slot, s acct = some slot ∧
      (update_journal_entry s caller acct title message).store acct =
        some ⟨⟨slot.state.owner, slot.state.title, message⟩, accountSpace⟩ ∧
      ∀ k, k ≠ acct →
        (update_journal_entry s caller acct title message).store k = s k := by
  cases hs : s acct with
  | none =>
    rw [update_of_absent hs] at hok
    exact Except.noConfusion hok
  | some slot =>
    rw [update_of_found hs] at hok ⊢
    by_cases hseed : acct = derive_key title caller
    · rw [if_pos hseed] at hok ⊢
      by_cases hsz :
          serializedSize ⟨slot.state.owner, slot.state.title, message⟩ ≤ initSpace
      · rw [if_pos hsz]
        exact ⟨slot, rfl, storeSet_self s acct _,
          fun k hk => storeSet_ne s acct k _ hk⟩
      · rw [if_neg hsz] at hok
        exact Except.noConfusion hok
    · rw [if_neg hseed] at hok
      exact Except.noConfusion hok

/-- Witness for C5: updating the sample record's message. -/
theorem update_replaces_message_only_witness :
    ∃ slot : Slot, liveStore keyDay1 = some slot ∧
      (update_journal_entry liveStore ownerA keyDay1 titleDay1
          msgHelloWorld).store keyDay1 =
        some ⟨⟨slot.state.owner, slot.state.title, msgHelloWorld⟩, accountSpace⟩ ∧
      ∀ k, k ≠ keyDay1 →
        (update_journal_entry liveStore ownerA keyDay1 titleDay1
            msgHelloWorld).store k = liveStore k :=
  update_replaces_message_only liveStore ownerA keyDay1 titleDay1 msgHelloWorld rfl

/-- C6: update and delete on a key holding no record fail with
`RecordNotFound` (the account fails to deserialize) and leave the store
unchanged; update and delete by a caller who is not the record's owner
fail with `NotOwner` (the seeds constraint re-derived from the caller's
key does not match the passed account) and leave the store unchanged. -/
theorem update_delete_error_cases :
    (∀ (s : Store) (caller : Pubkey) (acct : Key) (title message : Bytes),
      s acct = none →
      update_journal_entry s caller acct title message =
        ⟨.error .RecordNotFound, s⟩ ∧
      delete_journal_entry s caller acct title = ⟨.error .RecordNotFound, s⟩) ∧
    (∀ (s : Store) (caller : Pubkey) (acct : Key) (slot : Slot) (message : Bytes),
      s acct = some slot →
      acct = derive_key slot.state.title slot.state.owner →
      caller ≠ slot.state.owner →
      update_journal_entry s caller acct slot.state.title message =
        ⟨.error .NotOwner, s⟩ ∧
      delete_journal_entry s caller acct slot.state.title =
        ⟨.error .NotOwner, s⟩) := by
  constructor
  · intro s caller acct title message h
    exact ⟨update_of_absent h, delete_of_absent h⟩
  · intro s caller acct slot message h hkey hne
    have hseed : acct ≠ derive_key slot.state.title caller := by
      rw [hkey]
      intro hc
      exact hne (congrArg Key.ownerSeed hc).symm
    exact ⟨by rw [update_of_found h, if_neg hseed],
      by rw [delete_of_found h, if_neg hseed]⟩

/-- Witness for C6: update/delete of an absent record on the empty
store, and by non-owner ownerB on the sample record. -/
theorem update_delete_error_cases_witness :
    (update_journal_entry emptyStore ownerA keyDay1 titleDay1 msgHello =
        ⟨.error .RecordNotFound, emptyStore⟩ ∧
      delete_journal_entry emptyStore ownerA keyDay1 titleDay1 =
        ⟨.error .RecordNotFound, emptyStore⟩) ∧
    (update_journal_entry liveStore ownerB keyDay1 titleDay1 msgHelloWorld =
        ⟨.error .NotOwner, liveStore⟩ ∧
      delete_journal_entry liveStore ownerB keyDay1 titleDay1 =
        ⟨.error .NotOwner, liveStore⟩) :=
  ⟨update_delete_error_cases.1 emptyStore ownerA keyDay1 titleDay1 msgHello rfl,
   update_delete_error_cases.2 liveStore ownerB keyDay1
     ⟨⟨ownerA, titleDay1, msgHello⟩, accountSpace⟩ msgHelloWorld rfl rfl
     (by decide)⟩

/-- C7: key derivation is a deterministic pure function of the seed pair
(title bytes, owner bytes), and it is injective: the same pair always
derives the same key, different owners with the same title derive
different keys, and different titles with the same owner derive
different keys.  (The host hash primitive behind PDA derivation is
modelled as the injective pairing of the seeds, per spec §3.) -/
theorem derive_key_deterministic_and_injective :
    (∀ (t : Bytes) (o : Pubkey), derive_key t o = derive_key t o) ∧
    (∀ (t : Bytes) (o1 o2 : Pubkey), o1 ≠ o2 → derive_key t o1 ≠ derive_key t o2) ∧
    (∀ (t1 t2 : Bytes) (o : Pubkey), t1 ≠ t2 → derive_key t1 o ≠ derive_key t2 o) := by
  refine ⟨fun t o => rfl, ?_, ?_⟩
  · intro t o1 o2 h hc
    exact h (congrArg Key.ownerSeed hc)
  · intro t1 t2 o h hc
    exact h (congrArg Key.titleSeed hc)

/-- Witness for C7 on concrete distinct owners and titles. -/
theorem derive_key_injective_witness :
    derive_key titleDay1 ownerA ≠ derive_key titleDay1 ownerB ∧
    derive_key titleDay1 ownerA ≠ derive_key t50 ownerA :=
  ⟨derive_key_deterministic_and_injective.2.1 titleDay1 ownerA ownerB (by decide),
   derive_key_deterministic_and_injective.2.2 titleDay1 t50 ownerA (by decide)⟩

/-- C8: every instruction is atomic with respect to errors: whenever
create, update or delete returns an error, the resulting store is
exactly the store before the call.  The precondition checks (existence,
seeds, capacity) all resolve before any state is committed; the one
check that runs after the handler — serializing the record back into the
slot — aborts the transaction on failure, rolling the store back. -/
theorem operations_atomic_on_error :
    (∀ (s : Store) (owner : Pubkey) (title message : Bytes) (e : Err),
      (create_journal_entry s owner title message).res = .error e →
      (create_journal_entry s owner title message).store = s) ∧
    (∀ (s : Store) (caller : Pubkey) (acct : Key) (title message : Bytes) (e : Err),
      (update_journal_entry s caller acct title message).res = .error e →
      (update_journal_entry s caller acct title message).store = s) ∧
    (∀ (s : Store) (caller : Pubkey) (acct : Key) (title : Bytes) (e : Err),
      (delete_journal_entry s caller acct title).res = .error e →
      (delete_journal_entry s caller acct title).store = s) := by
  refine ⟨?_, ?_, ?_⟩
  · intro s owner title message e herr
    cases hs : s (derive_key title owner) with
    | some slot => rw [create_of_occupied hs]
    | none =>
      rw [create_of_free hs] at herr ⊢
      by_cases hsz : serializedSize ⟨owner, title, message⟩ ≤ initSpace
      · rw [if_pos hsz] at herr
        exact Except.noConfusion herr
      · rw [if_neg hsz]
  · intro s caller acct title message e herr
    cases hs : s acct with
    | none => rw [update_of_absent hs]
    | some slot =>
      rw [update_of_found hs] at herr ⊢
      by_cases hseed : acct = derive_key title caller
      · rw [if_pos hseed] at herr ⊢
        by_cases hsz :
            serializedSize ⟨slot.state.owner, slot.state.title, message⟩ ≤ initSpace
        · rw [if_pos hsz] at herr
          exact Except.noConfusion herr
        · rw [if_neg hsz]
      · rw [if_neg hseed]
  · intro s caller acct title e herr
    cases hs : s acct with
    | none => rw [delete_of_absent hs]
    | some slot =>
      rw [delete_of_found hs] at herr ⊢
      by_cases hseed : acct = derive_key title caller
      · rw [if_pos hseed] at herr ⊢
        by_cases hsz : serializedSize slot.state ≤ initSpace
        · rw [if_pos hsz] at herr
          exact Except.noConfusion herr
        · rw [if_neg hsz]
      · rw [if_neg hseed]

/-- Witness for C8: a failing create (slot already in use) leaves the
store exactly as it was. -/
theorem operations_atomic_on_error_witness :
    (create_journal_entry liveStore ownerA titleDay1 msgHello).store = liveStore :=
  operations_atomic_on_error.1 liveStore ownerA titleDay1 msgHello
    .SlotAlreadyExists rfl

/-- C9: a successful delete leaves the targeted record fully in place —
same owner, same title, same message — still allocated at the fixed
capacity `8 + INIT_SPACE` (the `UpdatelEntry` context reallocs to that
size; nothing is closed), and leaves every other key untouched. -/
theorem delete_preserves_record (s : Store) (caller : Pubkey) (acct : Key)
    (title : Bytes)
    (hok : (delete_journal_entry s caller acct title).res = .ok ()) :
    ∃ slot : Slot, s acct = some slot ∧
      (delete_journal_entry s caller acct title).store acct =
        some ⟨slot.state, 8 + initSpace⟩ ∧
      ∀ k, k ≠ acct → (delete_journal_entry s caller acct title).store k = s k := by
  cases hs : s acct with
  | none =>
    rw [delete_of_absent hs] at hok
    exact Except.noConfusion hok
  | some slot =>
    rw [delete_of_found hs] at hok ⊢
    by_cases hseed : acct = derive_key title caller
    · rw [if_pos hseed] at hok ⊢
      by_cases hsz : serializedSize slot.state ≤ initSpace
      · rw [if_pos hsz]
        exact ⟨slot, rfl, storeSet_self s acct _,
          fun k hk => storeSet_ne s acct k _ hk⟩
      · rw [if_neg hsz] at hok
        exact Except.noConfusion hok
    · rw [if_neg hseed] at hok
      exact Except.noConfusion hok

/-- Witness for C9: deleting the sample record keeps it allocated with
its fields intact. -/
theorem delete_preserves_record_witness :
    ∃ slot : Slot, liveStore keyDay1 = some slot ∧
      (delete_journal_entry liveStore ownerA keyDay1 titleDay1).store keyDay1 =
        some ⟨slot.state, 8 + initSpace⟩ ∧
      ∀ k, k ≠ keyDay1 →
        (delete_journal_entry liveStore ownerA keyDay1 titleDay1).store k =
          liveStore k :=
  delete_preserves_record liveStore ownerA keyDay1 titleDay1 rfl

/-- C10: owner/key consistency is an invariant: starting from any store
in which every live record's stored owner equals the owner seed of its
key, each of create (which writes the signing owner it used as a seed),
update (which never touches the owner field) and delete (which changes
nothing) yields a store with the same property. -/
theorem owner_matches_key_seed (s : Store) (hs : ownerInv s) :
    (∀ (owner : Pubkey) (title message : Bytes),
      ownerInv (create_journal_entry s owner title message).store) ∧
    (∀ (caller : Pubkey) (acct : Key) (title message : Bytes),
      ownerInv (update_journal_entry s caller acct title message).store) ∧
    (∀ (caller : Pubkey) (acct : Key) (title : Bytes),
      ownerInv (delete_journal_entry s caller acct title).store) := by
  refine ⟨?_, ?_, ?_⟩
  · intro owner title message
    cases hsk : s (derive_key title owner) with
    | some slot =>
      rw [create_of_occupied hsk]
      exact hs
    | none =>
      rw [create_of_free hsk]
      by_cases hsz : serializedSize ⟨owner, title, message⟩ ≤ initSpace
      · rw [if_pos hsz]
        exact ownerInv_storeSet hs rfl
      · rw [if_neg hsz]
        exact hs
  · intro caller acct title message
    cases hsk : s acct with
    | none =>
      rw [update_of_absent hsk]
      exact hs
    | some slot =>
      rw [update_of_found hsk]
      by_cases hseed : acct = derive_key title caller
      · rw [if_pos hseed]
        by_cases hsz :
            serializedSize ⟨slot.state.owner, slot.state.title, message⟩ ≤ initSpace
        · rw [if_pos hsz]
          exact ownerInv_storeSet hs (hs acct slot hsk)
        · rw [if_neg hsz]
          exact hs
      · rw [if_neg hseed]
        exact hs
  · intro caller acct title
    cases hsk : s acct with
    | none =>
      rw [delete_of_absent hsk]
      exact hs
    | some slot =>
      rw [delete_of_found hsk]
      by_cases hseed : acct = derive_key title caller
      · rw [if_pos hseed]
        by_cases hsz : serializedSize slot.state ≤ initSpace
        · rw [if_pos hsz]
          exact ownerInv_storeSet hs (hs acct slot hsk)
        · rw [if_neg hsz]
          exact hs
      · rw [if_neg hseed]
        exact hs

/-- Witness for C10: the invariant holds after creating the sample
record on the empty store (which satisfies it vacuously). -/
theorem owner_matches_key_seed_witness :
    ownerInv (create_journal_entry emptyStore ownerA titleDay1 msgHello).store :=
  (owner_matches_key_seed emptyStore
    (fun _ _ h => Option.noConfusion h)).1 ownerA titleDay1 msgHello

end Crudapp
